import Mathlib

/-!
Verification development for the BOM explosion / costing / MRP engine of the
16Food-QLSX backend (`backend/app/services/bom_service.py`,
`production_service.py`, `production_planning_service.py`).

The relational state is embedded shallowly: each SQLAlchemy entity becomes a
structure, the session becomes an explicit `DB` record of entity lists, and
quantities/prices (Python floats backed by SQL numerics) become rationals.
Dates are modelled as natural numbers (day ordinals).  SQL `ORDER BY`
clauses with unspecified tie order are modelled by a stable insertion sort,
a deterministic refinement of the arbitrary SQL ordering.
-/

/-- Stable insertion of `x` into `l` using the boolean relation `le`. -/
def insLe {α : Type} (le : α → α → Bool) (x : α) : List α → List α
  | [] => [x]
  | y :: ys => if le x y then x :: y :: ys else y :: insLe le x ys

/-- Stable insertion sort by the boolean relation `le`; models SQL ORDER BY. -/
def sortLe {α : Type} (le : α → α → Bool) : List α → List α
  | [] => []
  | x :: xs => insLe le x (sortLe le xs)

/-- Keep the first occurrence of each key not already in `seen`, preserving
order.  Models a Python dict populated with `if key not in map: map[key] = row`. -/
def dedupeAux {α : Type} (key : α → Nat) (seen : List Nat) : List α → List α
  | [] => []
  | x :: xs =>
    if key x ∈ seen then dedupeAux key seen xs
    else x :: dedupeAux key (key x :: seen) xs

/-- Keep only the first occurrence of each key, preserving order. -/
def dedupeByKey {α : Type} (key : α → Nat) (l : List α) : List α :=
  dedupeAux key [] l

/-- Python truthiness of an optional numeric value: `None` and `0` are falsy. -/
def optTruthy (o : Option ℚ) : Bool := !(o.getD 0 == 0)

/-- Python truthiness of an optional integer (`None` and `0` falsy). -/
def optTruthyN (o : Option Nat) : Bool := !(o.getD 0 == 0)

/-- Python `x if x else None` on an optional numeric: normalizes `0` to `None`. -/
def optNormQ (o : Option ℚ) : Option ℚ := if optTruthy o then o else none

/-- Row of `san_pham` (`Product` in `models/entities.py`). -/
structure Product where
  id : Nat
  code : String
  name : String
  group : String
  batch_spec : Option String
  cost_price : Option ℚ
deriving DecidableEq

/-- Row of `bom_sp` (`BomMaterial`): material edge of the BOM graph. -/
structure BomMaterial where
  product_id : Nat
  material_id : Nat
  quantity : ℚ
  uom : String
  cost : Option ℚ
  effective_date : Option Nat
deriving DecidableEq

/-- Row of `bom_btp` (`BomSemiProduct`): component edge of the BOM graph. -/
structure BomSemiProduct where
  semi_product_id : Nat
  component_id : Nat
  quantity : ℚ
  uom : String
  operation_sequence : Option Nat
deriving DecidableEq

/-- Row of `bom_nhan_cong` (`BomLabor`). -/
structure BomLabor where
  product_id : Nat
  equipment : Option String
  labor_type : Option String
  quantity : Option ℚ
  duration_minutes : Option Nat
  unit_cost : Option ℚ
deriving DecidableEq

/-- Row of `lich_su_gia_nvl` (`MaterialPriceHistory`). -/
structure PriceEntry where
  material_id : Nat
  price : ℚ
  quoted_date : Nat
deriving DecidableEq

/-- Row of `dm_kho` (`Warehouse`); only id and type are read by this core. -/
structure Warehouse where
  id : Nat
  type : String
deriving DecidableEq

/-- Row of `ton_kho_song` (`InventorySnapshot`). -/
structure InventorySnapshot where
  product_id : Nat
  warehouse_id : Nat
  current_qty : ℚ
deriving DecidableEq

/-- Row of `don_hang` (`SalesOrder`); fields read by demand aggregation. -/
structure SalesOrder where
  id : Nat
  delivery_date : Nat
  status : String
deriving DecidableEq

/-- Row of `don_hang_ct` (`SalesOrderLine`). -/
structure SalesOrderLine where
  order_id : Nat
  product_id : Nat
  quantity : ℚ
deriving DecidableEq

/-- Row of `lenh_sx` (`ProductionOrder`).  The uuid primary key of created
orders is abstracted to `0`; `business_seq` models the counter suffix of the
generated `LSX-yyyyMMdd-xxx` business id. -/
structure ProductionOrder where
  id : Nat
  business_seq : Nat
  production_date : Nat
  order_type : String
  product_id : Nat
  planned_qty : ℚ
deriving DecidableEq

/-- Row of `khsx_ngay` (`ProductionPlanDay`). -/
structure PlanDay where
  product_id : Nat
  production_date : Nat
  planned_qty : ℚ
  ordered_qty : ℚ
  remaining_qty : ℚ
  capacity_max : ℚ
deriving DecidableEq

/-- The relational state visible to the engine: one list per table, plus the
ambient `date.today()` used when a pricing or planning date is omitted. -/
structure DB where
  today : Nat
  products : List Product
  bom_materials : List BomMaterial
  bom_semi_products : List BomSemiProduct
  bom_labors : List BomLabor
  price_history : List PriceEntry
  warehouses : List Warehouse
  inventory : List InventorySnapshot
  sales_orders : List SalesOrder
  sales_order_lines : List SalesOrderLine
  production_orders : List ProductionOrder
  plan_days : List PlanDay
deriving DecidableEq

/-- Primary-key lookup in the product table. -/
def findProduct (ps : List Product) (pid : Nat) : Option Product :=
  ps.find? (fun p => p.id == pid)

/-- Primary-key lookup in the warehouse table. -/
def findWarehouse (db : DB) (wid : Nat) : Option Warehouse :=
  db.warehouses.find? (fun w => w.id == wid)

/-- Primary-key lookup in the sales-order table. -/
def findSalesOrder (db : DB) (oid : Nat) : Option SalesOrder :=
  db.sales_orders.find? (fun o => o.id == oid)

/-- Primary-key lookup in the production-order table. -/
def findPO (db : DB) (poid : Nat) : Option ProductionOrder :=
  db.production_orders.find? (fun po => po.id == poid)

/-- Ordering key of `ORDER BY effective_date DESC NULLS LAST`:
`effLe a b` holds when `a` sorts no later than `b`. -/
def effLe : Option Nat → Option Nat → Bool
  | _, none => true
  | none, some _ => false
  | some a, some b => decide (b ≤ a)

/-- Ordering key of `ORDER BY operation_sequence ASC NULLS LAST`. -/
def seqLe : Option Nat → Option Nat → Bool
  | _, none => true
  | none, some _ => false
  | some a, some b => decide (a ≤ b)

/-- One row of the dict built by `get_bom_materials` in `bom_service.py`. -/
structure MatInfo where
  material_id : Nat
  material_code : String
  material_name : String
  quantity : ℚ
  uom : String
  cost : Option ℚ
  effective_date : Option Nat
deriving DecidableEq

/-- The dict literal of `get_bom_materials`: note the truthiness test
`float(bom_material.cost) if bom_material.cost else None`, which maps a cached
cost of exactly `0` to `None`. -/
def mkInfo (e : BomMaterial) (m : Product) : MatInfo :=
  { material_id := m.id
    material_code := m.code
    material_name := m.name
    quantity := e.quantity
    uom := e.uom
    cost := optNormQ e.cost
    effective_date := e.effective_date }

/-- The optional effective-date filter of `get_bom_materials`:
`(effective_date <= d) | (effective_date IS NULL)` when a date is supplied. -/
def effOk (eff : Option Nat) (e : BomMaterial) : Bool :=
  match eff with
  | none => true
  | some d =>
    match e.effective_date with
    | none => true
    | some ed => decide (ed ≤ d)

/-- The joined, filtered row set of `get_bom_materials`, before ordering
and per-material deduplication. -/
def bomRows (db : DB) (pid : Nat) (eff : Option Nat) : List MatInfo :=
  (db.bom_materials.filter (fun e => e.product_id == pid && effOk eff e)).filterMap
    (fun e => (findProduct db.products e.material_id).map (fun m => mkInfo e m))

/-- `get_bom_materials` (`bom_service.py:29`): filter by product and optional
effective date, order by `effective_date DESC NULLS LAST`, and keep the first
row per material id. -/
def get_bom_materials (db : DB) (pid : Nat) (eff : Option Nat) : List MatInfo :=
  dedupeByKey (fun a => a.material_id)
    (sortLe (fun a b => effLe a.effective_date b.effective_date) (bomRows db pid eff))

/-- `get_material_price` (`bom_service.py:104`): latest price-history entry of
the material quoted on or before the pricing date (default: today). -/
def get_material_price (db : DB) (mid : Nat) (pd : Option Nat) : Option ℚ :=
  let d := pd.getD db.today
  let rows := db.price_history.filter (fun en => en.material_id == mid && decide (en.quoted_date ≤ d))
  ((sortLe (fun a b => decide (b.quoted_date ≤ a.quoted_date)) rows).head?).map
    (fun en => en.price)

/-- Digit run to a natural number (base 10). -/
def digitsToNat (cs : List Char) : Nat :=
  cs.foldl (fun n c => 10 * n + (c.toNat - 48)) 0

/-- Split a leading maximal run of decimal digits off a character list. -/
def takeDigits : List Char → (List Char × List Char)
  | [] => ([], [])
  | c :: cs =>
    if c.isDigit then
      let r := takeDigits cs
      (c :: r.1, r.2)
    else ([], c :: cs)

/-- First match of the regex `(\d+(?:\.\d+)?)` in a character list, read as a
rational: an integer run, optionally followed by a dot and a fraction run. -/
def findFirstNumber : List Char → Option ℚ
  | [] => none
  | c :: cs =>
    if c.isDigit then
      let ip := takeDigits (c :: cs)
      let intPart : ℚ := digitsToNat ip.1
      match ip.2 with
      | '.' :: r2 =>
        let fp := takeDigits r2
        if fp.1 = [] then some intPart
        else some (intPart + (digitsToNat fp.1 : ℚ) / ((10 : ℚ) ^ fp.1.length))
      | _ => some intPart
    else findFirstNumber cs

/-- The ad-hoc batch-size parse used by the services:
`re.search(r'(\d+(?:\.\d+)?)', str(batch_spec))` followed by `float(...)`. -/
def parseBatchSpec (s : String) : Option ℚ :=
  findFirstNumber s.toList

/-- Python `float(s)` on a plain unsigned decimal literal
(`digits`, `digits.`, `digits.digits` or `.digits`); other inputs fail. -/
def parseDecimalChars (cs : List Char) : Option ℚ :=
  let ip := takeDigits cs
  match ip.2 with
  | [] => if ip.1 = [] then none else some (digitsToNat ip.1)
  | '.' :: r =>
    let fp := takeDigits r
    if fp.2 ≠ [] then none
    else if ip.1 = [] ∧ fp.1 = [] then none
    else some ((digitsToNat ip.1 : ℚ) + (digitsToNat fp.1 : ℚ) / ((10 : ℚ) ^ fp.1.length))
  | _ => none

/-- Models Python `float(str)` on the simple signed decimal literals that occur
as batch specs; scientific notation and special values, which the repository's
batch specs never use, are treated as parse failures. -/
def pyFloatOfString (s : String) : Option ℚ :=
  match s.toList with
  | '-' :: cs => (parseDecimalChars cs).map (fun x => -x)
  | '+' :: cs => parseDecimalChars cs
  | cs => parseDecimalChars cs

/-- `calculate_batch_count` (`production_service.py:34`): zero batches for a
missing spec or non-positive quantity; `ceil(q / b)` when the whole spec or its
first numeric token parses to a positive number; one batch otherwise. -/
def calculate_batch_count (q : ℚ) (spec : Option String) : ℚ :=
  match spec with
  | none => 0
  | some s =>
    if s = "" ∨ q ≤ 0 then 0
    else
      let viaFloat : Option ℚ :=
        match pyFloatOfString s with
        | some b => if 0 < b then some ((⌈q / b⌉ : ℤ) : ℚ) else none
        | none => none
      match viaFloat with
      | some r => r
      | none =>
        match parseBatchSpec s with
        | some b => if 0 < b then ((⌈q / b⌉ : ℤ) : ℚ) else 1
        | none => 1

/-- One row of the `material_requirements` dict built by
`calculate_material_requirements_for_production_order`. -/
structure MatReq where
  material_id : Nat
  material_code : String
  material_name : String
  required_quantity : ℚ
  uom : String
  unit_cost : Option ℚ
  total_cost : ℚ
deriving DecidableEq

/-- Python dict assignment `map[k] = r`: replace the entry with the same key in
place, or append. -/
def setReq : List MatReq → MatReq → List MatReq
  | [], r => [r]
  | x :: xs, r =>
    if x.material_id = r.material_id then r :: xs else x :: setReq xs r

/-- In-place update of the (unique) entry with the given key. -/
def updateReq (k : Nat) (f : MatReq → MatReq) : List MatReq → List MatReq
  | [] => []
  | x :: xs => if x.material_id = k then f x :: xs else x :: updateReq k f xs

/-- Accumulation step of the BTP branch (`bom_service.py:210`): add
`total_mat_qty` to an existing entry's quantity and cost, or create one. -/
def bumpBtp (acc : List MatReq) (bi : MatInfo) (tq : ℚ) : List MatReq :=
  if acc.any (fun x => x.material_id == bi.material_id) then
    updateReq bi.material_id
      (fun x =>
        { x with
          required_quantity := x.required_quantity + tq
          total_cost := x.total_cost + tq * bi.cost.getD 0 }) acc
  else
    acc ++ [{ material_id := bi.material_id
              material_code := bi.material_code
              material_name := bi.material_name
              required_quantity := tq
              uom := bi.uom
              unit_cost := bi.cost
              total_cost := tq * bi.cost.getD 0 }]

/-- Accumulation step of the direct-component branch (`bom_service.py:230`):
only the quantity of an existing entry is increased; a fresh entry also
resolves a unit price from the price history. -/
def bumpDirect (acc : List MatReq) (cid : Nat) (comp : Product) (uomStr : String)
    (q : ℚ) (price : Option ℚ) : List MatReq :=
  if acc.any (fun x => x.material_id == cid) then
    updateReq cid (fun x => { x with required_quantity := x.required_quantity + q }) acc
  else
    acc ++ [{ material_id := cid
              material_code := comp.code
              material_name := comp.name
              required_quantity := q
              uom := uomStr
              unit_cost := price
              total_cost := q * price.getD 0 }]

/-- One row of `get_bom_semi_products` (`bom_service.py:72`). -/
structure SemiInfo where
  component_id : Nat
  quantity : ℚ
  uom : String
  operation_sequence : Option Nat
deriving DecidableEq

/-- `get_bom_semi_products`: component edges of a product joined to the
component products, ordered by `operation_sequence ASC NULLS LAST`. -/
def get_bom_semi_products (db : DB) (pid : Nat) : List SemiInfo :=
  sortLe (fun a b => seqLe a.operation_sequence b.operation_sequence)
    ((db.bom_semi_products.filter (fun s => s.semi_product_id == pid)).filterMap
      (fun s => (findProduct db.products s.component_id).map
        (fun _ => { component_id := s.component_id
                    quantity := s.quantity
                    uom := s.uom
                    operation_sequence := s.operation_sequence })))

/-- The body of the component loop in
`calculate_material_requirements_for_production_order` (`bom_service.py:184`):
a missing component is skipped; a `BTP` component contributes
`(child demand / batch size) *` its per-batch material quantities when its
batch spec is present and parses to a positive size, and nothing otherwise;
any other component is added as a direct material requirement. -/
def processSemi (db : DB) (q : ℚ) (acc : List MatReq) (si : SemiInfo) : List MatReq :=
  match findProduct db.products si.component_id with
  | none => acc
  | some comp =>
    let required := q * si.quantity
    if comp.group = "BTP" then
      match comp.batch_spec with
      | none => acc
      | some spec =>
        if spec = "" then acc
        else
          match parseBatchSpec spec with
          | none => acc
          | some b =>
            if 0 < b then
              let bc := required / b
              (get_bom_materials db si.component_id none).foldl
                (fun a bi => bumpBtp a bi (bc * bi.quantity)) acc
            else acc
    else
      bumpDirect acc si.component_id comp si.uom required
        (get_material_price db si.component_id none)

/-- `calculate_material_requirements_for_production_order`
(`bom_service.py:134`): direct materials scaled by the planned quantity, then
the component loop; `None` models the `ValueError` raised for a missing
production order or product. -/
def calculate_material_requirements_for_production_order
    (db : DB) (poid : Nat) : Option (List MatReq) :=
  match findPO db poid with
  | none => none
  | some po =>
    match findProduct db.products po.product_id with
    | none => none
    | some _ =>
      let q := po.planned_qty
      let step1 := (get_bom_materials db po.product_id none).foldl
        (fun acc bi =>
          setReq acc
            { material_id := bi.material_id
              material_code := bi.material_code
              material_name := bi.material_name
              required_quantity := q * bi.quantity
              uom := bi.uom
              unit_cost := bi.cost
              total_cost := q * bi.quantity * bi.cost.getD 0 }) []
      some ((get_bom_semi_products db po.product_id).foldl (processSemi db q) step1)

/-- Required quantity reported for a material in an explosion result. -/
def reqQtyOf (r : Option (List MatReq)) (mid : Nat) : Option ℚ :=
  r.bind (fun l => (l.find? (fun x => x.material_id == mid)).map
    (fun x => x.required_quantity))

/-- One row of `material_details` in `calculate_product_cost_from_bom`. -/
structure CostLine where
  material_code : String
  material_name : String
  quantity : ℚ
  uom : String
  unit_cost : ℚ
  line_cost : ℚ
deriving DecidableEq

/-- The per-material body of the costing loop (`bom_service.py:279`): prefer a
truthy cached BOM-edge cost, otherwise look the price up in the history, and
price the line at zero when both are absent. -/
def costLineOf (db : DB) (d : Nat) (mi : MatInfo) : CostLine :=
  let mp := if optTruthy mi.cost then mi.cost else get_material_price db mi.material_id (some d)
  let uc := mp.getD 0
  { material_code := mi.material_code
    material_name := mi.material_name
    quantity := mi.quantity
    uom := mi.uom
    unit_cost := uc
    line_cost := mi.quantity * uc }

/-- One row of `labor_details` in `calculate_product_cost_from_bom`; quantity
and unit cost are reported through the same zero-to-`None` truthiness used by
the source. -/
structure LaborDetail where
  equipment : Option String
  labor_type : Option String
  duration_minutes : Option Nat
  quantity : Option ℚ
  unit_cost : Option ℚ
  line_cost : ℚ
deriving DecidableEq

/-- The per-labor-row body of the costing loop (`bom_service.py:307`). -/
def laborLineOf (l : BomLabor) : LaborDetail :=
  let c : ℚ :=
    if optTruthy l.unit_cost && optTruthyN l.duration_minutes then
      ((l.duration_minutes.getD 0 : ℚ) / 60) * l.unit_cost.getD 0
    else if optTruthy l.unit_cost && optTruthy l.quantity then
      l.quantity.getD 0 * l.unit_cost.getD 0
    else 0
  { equipment := l.equipment
    labor_type := l.labor_type
    duration_minutes := l.duration_minutes
    quantity := optNormQ l.quantity
    unit_cost := optNormQ l.unit_cost
    line_cost := c }

/-- The dict returned by `calculate_product_cost_from_bom`. -/
structure CostResult where
  product_code : String
  product_name : String
  pricing_date : Nat
  total_material_cost : ℚ
  total_labor_cost : ℚ
  total_cost : ℚ
  material_details : List CostLine
  labor_details : List LaborDetail
deriving DecidableEq

/-- `calculate_product_cost_from_bom` (`bom_service.py:249`): material lines
from the effective BOM as of the pricing date (default today), labor lines of
the product, and `total = material + labor`; `None` models the `ValueError`
for a missing product. -/
def calculate_product_cost_from_bom (db : DB) (pid : Nat) (pd : Option Nat) :
    Option CostResult :=
  let d := pd.getD db.today
  match findProduct db.products pid with
  | none => none
  | some p =>
    let details := (get_bom_materials db pid (some d)).map (costLineOf db d)
    let tm := (details.map (fun ln => ln.line_cost)).sum
    let lds := (db.bom_labors.filter (fun l => l.product_id == pid)).map laborLineOf
    let tl := (lds.map (fun ld => ld.line_cost)).sum
    some
      { product_code := p.code
        product_name := p.name
        pricing_date := d
        total_material_cost := tm
        total_labor_cost := tl
        total_cost := tm + tl
        material_details := details
        labor_details := lds }

/-- Total cost a recalculation writes back: `cost_data.get("total_cost", 0.0)`. -/
def costTotalD (db : DB) (pid : Nat) : ℚ :=
  match calculate_product_cost_from_bom db pid none with
  | some r => r.total_cost
  | none => 0

/-- One row of `updated_products` in
`recalculate_product_cost_on_material_price_change`. -/
structure UpdEntry where
  product_id : Nat
  product_code : String
  old_cost : Option ℚ
  new_cost : ℚ
deriving DecidableEq

/-- One row of `cascade_updated` in the same function. -/
structure CascEntry where
  product_id : Nat
  old_cost : Option ℚ
  new_cost : ℚ
  triggered_by_btp : String
deriving DecidableEq

/-- Mutable state threaded through the recalculation loops: the product table
(whose `cost_price` column is written) and the two report lists. -/
structure RecalcState where
  prods : List Product
  updated : List UpdEntry
  cascade : List CascEntry
deriving DecidableEq

/-- Write-back of `Product.cost_price` for one product id. -/
def setCostPrice (ps : List Product) (pid : Nat) (v : ℚ) : List Product :=
  ps.map (fun p => if p.id = pid then { p with cost_price := some v } else p)

/-- The inner cascade loop body (`bom_service.py:423`): recompute and persist
the cost of one product that consumes the changed-cost BTP. -/
def cascStep (db : DB) (trig : String) (st : RecalcState) (se : BomSemiProduct) :
    RecalcState :=
  match findProduct st.prods se.semi_product_id with
  | none => st
  | some parent =>
    match calculate_product_cost_from_bom { db with products := st.prods } parent.id none with
    | none => st
    | some cd =>
      { prods := setCostPrice st.prods parent.id cd.total_cost
        updated := st.updated
        cascade := st.cascade ++
          [{ product_id := parent.id
             old_cost := optNormQ parent.cost_price
             new_cost := cd.total_cost
             triggered_by_btp := trig }] }

/-- The cascade tier of the outer loop body: when the just-recosted product is
a BTP, recompute every product that consumes it through a component edge. -/
def recalcCascade (db : DB) (p : Product) (st1 : RecalcState) : RecalcState :=
  if p.group = "BTP" then
    (db.bom_semi_products.filter (fun se => se.component_id == p.id)).foldl
      (cascStep db p.code) st1
  else st1

/-- The outer loop body (`bom_service.py:394`): recompute and persist the cost
of one product that consumes the repriced material directly, then cascade one
level up when that product is a BTP. -/
def recalcStep (db : DB) (st : RecalcState) (e : BomMaterial) : RecalcState :=
  match findProduct st.prods e.product_id with
  | none => st
  | some p =>
    match calculate_product_cost_from_bom { db with products := st.prods } p.id none with
    | none => st
    | some cd =>
      recalcCascade db p
        { prods := setCostPrice st.prods p.id cd.total_cost
          updated := st.updated ++
            [{ product_id := p.id
               product_code := p.code
               old_cost := optNormQ p.cost_price
               new_cost := cd.total_cost }]
          cascade := st.cascade }

/-- `recalculate_product_cost_on_material_price_change` (`bom_service.py:340`):
the product rows joined at query time stay identified by id while their
attributes are read and written during the loop, so the loop re-reads each
product from the current table state. -/
def recalculate_product_cost_on_material_price_change (db : DB) (mid : Nat) :
    DB × RecalcState :=
  let rows := db.bom_materials.filter
    (fun e => e.material_id == mid && (findProduct db.products e.product_id).isSome)
  let fin := rows.foldl (recalcStep db) { prods := db.products, updated := [], cascade := [] }
  ({ db with products := fin.prods }, fin)

/-- One entry of the aggregation dict in `calculate_material_requirement_plan`
(`production_planning_service.py:180`). -/
structure AggEntry where
  material_id : Nat
  material_code : String
  material_name : String
  total_required_qty : ℚ
  uom : String
deriving DecidableEq

/-- In-place update of the (unique) aggregation entry with the given key. -/
def updateAgg (k : Nat) (f : AggEntry → AggEntry) : List AggEntry → List AggEntry
  | [] => []
  | x :: xs => if x.material_id = k then f x :: xs else x :: updateAgg k f xs

/-- Merge one explosion line into the aggregation dict. -/
def addAgg (acc : List AggEntry) (m : MatReq) : List AggEntry :=
  if acc.any (fun x => x.material_id == m.material_id) then
    updateAgg m.material_id
      (fun x => { x with total_required_qty := x.total_required_qty + m.required_quantity }) acc
  else
    acc ++ [{ material_id := m.material_id
              material_code := m.material_code
              material_name := m.material_name
              total_required_qty := m.required_quantity
              uom := m.uom }]

/-- The per-production-order body of the aggregation loop: an order whose
explosion raises is skipped (`except Exception: continue`). -/
def mrpStep (db : DB) (acc : List AggEntry) (po : ProductionOrder) : List AggEntry :=
  match calculate_material_requirements_for_production_order db po.id with
  | none => acc
  | some mats => mats.foldl addAgg acc

/-- Production orders whose production date lies in the closed range. -/
def inRangeOrders (db : DB) (s e : Nat) : List ProductionOrder :=
  db.production_orders.filter
    (fun po => decide (s ≤ po.production_date) && decide (po.production_date ≤ e))

/-- The aggregation phase of `calculate_material_requirement_plan`. -/
def mrpAggregate (db : DB) (pos : List ProductionOrder) : List AggEntry :=
  pos.foldl (mrpStep db) []

/-- One row of the list returned by `calculate_material_requirement_plan`. -/
structure PlanLine where
  material_id : Nat
  material_code : String
  material_name : String
  total_required_qty : ℚ
  available_stock : ℚ
  net_required_qty : ℚ
  uom : String
deriving DecidableEq

/-- On-hand stock of a product summed over warehouses of one type
(`get_available_stock`, `production_service.py:68`, and the inline NVL query of
the planning service). -/
def stockOfType (db : DB) (pid : Nat) (wtype : String) : ℚ :=
  ((db.inventory.filter (fun sn => sn.product_id == pid &&
      ((findWarehouse db sn.warehouse_id).map (fun w => w.type) == some wtype))).map
    (fun sn => sn.current_qty)).sum

/-- The netting phase of `calculate_material_requirement_plan`
(`production_planning_service.py:203`): subtract NVL-warehouse stock when
requested and floor the net requirement at zero. -/
def netLine (db : DB) (deduct : Bool) (r : AggEntry) : PlanLine :=
  let stock : ℚ := if deduct then stockOfType db r.material_id "NVL" else 0
  { material_id := r.material_id
    material_code := r.material_code
    material_name := r.material_name
    total_required_qty := r.total_required_qty
    available_stock := stock
    net_required_qty := max 0 (r.total_required_qty - stock)
    uom := r.uom }

/-- `calculate_material_requirement_plan` (`production_planning_service.py:130`):
explode every production order in the date range (default: today to today+30),
sum per material, then net against NVL stock. -/
def calculate_material_requirement_plan (db : DB) (s e : Option Nat) (deduct : Bool) :
    List PlanLine :=
  let sd := s.getD db.today
  let ed := e.getD (sd + 30)
  (mrpAggregate db (inRangeOrders db sd ed)).map (netLine db deduct)

/-- Nested demand dict `{product_id: {delivery_date: qty}}` as insertion-ordered
association lists: accumulate a quantity for one (product, date) pair. -/
def addDate : List (Nat × ℚ) → Nat → ℚ → List (Nat × ℚ)
  | [], d, q => [(d, q)]
  | (d0, q0) :: xs, d, q =>
    if d0 = d then (d0, q0 + q) :: xs else (d0, q0) :: addDate xs d q

/-- Accumulate a quantity under a product key of the nested demand dict. -/
def addNested : List (Nat × List (Nat × ℚ)) → Nat → Nat → ℚ →
    List (Nat × List (Nat × ℚ))
  | [], pid, d, q => [(pid, [(d, q)])]
  | (p0, m) :: xs, pid, d, q =>
    if p0 = pid then (p0, addDate m d q) :: xs else (p0, m) :: addNested xs pid d q

/-- `aggregate_demand_from_orders` (`production_service.py:94`): sum sales-order
line quantities of orders with status `new` or `in_production` and delivery
date in range, grouped by product then delivery date. -/
def aggregate_demand_from_orders (db : DB) (s e : Option Nat) :
    List (Nat × List (Nat × ℚ)) :=
  db.sales_order_lines.foldl
    (fun dm l =>
      match findSalesOrder db l.order_id with
      | none => dm
      | some o =>
        if (o.status == "new" || o.status == "in_production")
            && (match s with | none => true | some sd => decide (sd ≤ o.delivery_date))
            && (match e with | none => true | some ed => decide (o.delivery_date ≤ ed)) then
          addNested dm l.product_id o.delivery_date l.quantity
        else dm) []

/-- In-place update of the first plan-day row for a (product, date) pair,
matching the `query(...).first()` row the source mutates. -/
def updatePlanFirst (pid pdate : Nat) (f : PlanDay → PlanDay) :
    List PlanDay → List PlanDay
  | [] => []
  | pl :: xs =>
    if pl.product_id = pid ∧ pl.production_date = pdate then f pl :: xs
    else pl :: updatePlanFirst pid pdate f xs

/-- `create_production_plan_day` (`production_service.py:133`): add the planned
quantity to an existing row for the (product, date) pair, or insert a fresh row
with zero ordered quantity. -/
def create_production_plan_day (days : List PlanDay) (pid pdate : Nat) (q cap : ℚ) :
    List PlanDay :=
  if days.any (fun pl => pl.product_id == pid && pl.production_date == pdate) then
    updatePlanFirst pid pdate
      (fun pl =>
        { pl with
          planned_qty := pl.planned_qty + q
          remaining_qty := pl.planned_qty + q - pl.ordered_qty }) days
  else
    days ++ [{ product_id := pid
               production_date := pdate
               planned_qty := q
               ordered_qty := 0
               remaining_qty := q
               capacity_max := cap }]

/-- `create_production_order_from_demand` (`production_service.py:179`): build a
production order whose business-id counter is the number of existing orders on
the same production date plus one; `None` models the `ValueError` for a missing
product (unreachable from the generator, which checks the product first). -/
def create_production_order_from_demand (db : DB) (pos : List ProductionOrder)
    (pid pdate : Nat) (q : ℚ) (otype : String) : Option ProductionOrder :=
  (findProduct db.products pid).map
    (fun _ =>
      { id := 0
        business_seq := (pos.filter (fun po => po.production_date == pdate)).length + 1
        production_date := pdate
        order_type := otype
        product_id := pid
        planned_qty := q })

/-- State threaded through the allocation loops of
`generate_production_orders_from_sales_orders`: plan days, the production-order
table, and the list of orders created by this run. -/
structure GenState where
  plan_days : List PlanDay
  pos : List ProductionOrder
  created : List ProductionOrder
deriving DecidableEq

/-- The per-delivery-date body of the allocation loop
(`production_service.py:307`): produce one day before delivery (clipped to the
range start), cap the assignment by `capacity_max = 1000` minus the
`ordered_qty` of any existing plan row, move one day later when that capacity
is exhausted, then create the order and update the plan day. -/
def allocDateStep (db : DB) (start : Nat) (pid : Nat) (otype : String)
    (byDate : List (Nat × ℚ)) (st : GenState × ℚ) (dd : Nat) : GenState × ℚ :=
  let gs := st.1
  let remaining := st.2
  let prod0 := max start (dd - 1)
  let dforf := ((byDate.find? (fun x => x.1 == dd)).map (fun x => x.2)).getD 0
  let toFulfill := min dforf remaining
  if toFulfill ≤ 0 then st
  else
    let cap : ℚ := 1000
    let used := ((gs.plan_days.find? (fun pl =>
      pl.product_id == pid && pl.production_date == prod0)).map
        (fun pl => pl.ordered_qty)).getD 0
    let avail0 := cap - used
    let pdate := if avail0 ≤ 0 then prod0 + 1 else prod0
    let avail := if avail0 ≤ 0 then cap else avail0
    let qty := min toFulfill avail
    match create_production_order_from_demand db gs.pos pid pdate qty otype with
    | none => st
    | some po =>
      ({ plan_days := create_production_plan_day gs.plan_days pid pdate qty cap
         pos := gs.pos ++ [po]
         created := gs.created ++ [po] }, remaining - qty)

/-- The per-product body of the generator loop (`production_service.py:278`):
net the product's total demand against finished-good or BTP stock, then
allocate the net demand over its delivery dates in ascending order. -/
def processProduct (db : DB) (auto_deduct : Bool) (start : Nat) (gs : GenState)
    (entry : Nat × List (Nat × ℚ)) : GenState :=
  match findProduct db.products entry.1 with
  | none => gs
  | some p =>
    let otype := if p.group = "BTP" then "BTP" else "SP"
    let wtype := if p.group = "BTP" then "BTP" else "TP"
    let total := (entry.2.map (fun x => x.2)).sum
    let net := if auto_deduct then max 0 (total - stockOfType db entry.1 wtype) else total
    if net ≤ 0 then gs
    else
      let dates := sortLe (fun a b => decide (a ≤ b)) (entry.2.map (fun x => x.1))
      (dates.foldl (allocDateStep db start entry.1 otype entry.2) (gs, net)).1

/-- `generate_production_orders_from_sales_orders` (`production_service.py:242`):
aggregate demand over the date range (default: today to today+30), then run the
netting and day-allocation loop per product. -/
def generate_production_orders_from_sales_orders (db : DB) (s e : Option Nat)
    (auto_deduct : Bool) : GenState :=
  let start := s.getD db.today
  let endd := e.getD (start + 30)
  let demand := aggregate_demand_from_orders db (some start) (some endd)
  demand.foldl (processProduct db auto_deduct start)
    { plan_days := db.plan_days, pos := db.production_orders, created := [] }

/-- An empty relational state, basis for the concrete test fixtures. -/
def DB.empty : DB :=
  { today := 0, products := [], bom_materials := [], bom_semi_products := []
    bom_labors := [], price_history := [], warehouses := [], inventory := []
    sales_orders := [], sales_order_lines := [], production_orders := []
    plan_days := [] }

/-- Fixture family for the multi-level explosion: finished good `F` (id 1)
needs `c` units of semi-product `S` (id 2, group BTP, the given batch spec) per
unit, `S` needs `m` kg of material `M` (id 3) per batch, and production order 1
plans `q` units of `F`. -/
def dbExplode (q c m : ℚ) (spec : Option String) : DB :=
  { DB.empty with
    products :=
      [{ id := 1, code := "F", name := "F", group := "TP", batch_spec := none, cost_price := none }
       , { id := 2, code := "S", name := "S", group := "BTP", batch_spec := spec, cost_price := none }
       , { id := 3, code := "M", name := "M", group := "NVL", batch_spec := none, cost_price := none }]
    bom_materials :=
      [{ product_id := 2, material_id := 3, quantity := m, uom := "kg", cost := none, effective_date := none }]
    bom_semi_products :=
      [{ semi_product_id := 1, component_id := 2, quantity := c, uom := "unit", operation_sequence := none }]
    production_orders :=
      [{ id := 1, business_seq := 1, production_date := 0, order_type := "SP", product_id := 1, planned_qty := q }] }

/-- Fixture for the BOM-version selection: product `F` (id 1) has two material
edges to `M` (id 3), effective on day 5 (quantity 2) and on day 100
(quantity 9); production order 1 plans one unit of `F`; today is day 10. -/
def dbC3 : DB :=
  { DB.empty with
    today := 10
    products :=
      [{ id := 1, code := "F", name := "F", group := "TP", batch_spec := none, cost_price := none }
       , { id := 3, code := "M", name := "M", group := "NVL", batch_spec := none, cost_price := none }]
    bom_materials :=
      [{ product_id := 1, material_id := 3, quantity := 2, uom := "kg", cost := none, effective_date := some 5 }
       , { product_id := 1, material_id := 3, quantity := 9, uom := "kg", cost := none, effective_date := some 100 }]
    production_orders :=
      [{ id := 1, business_seq := 1, production_date := 0, order_type := "SP", product_id := 1, planned_qty := 1 }] }

/-- Fixture for the price lookup: material 3 has quotes 10 on day 1, 20 on
day 5 and 30 on day 9. -/
def dbC4 : DB :=
  { DB.empty with
    price_history :=
      [{ material_id := 3, price := 10, quoted_date := 1 }
       , { material_id := 3, price := 20, quoted_date := 5 }
       , { material_id := 3, price := 30, quoted_date := 9 }] }

/-- Fixture for the costing engine: product 1 needs 2 kg of material 3 (no
cached edge cost), material 3 was quoted at 10 on day 1, and one labor row of
60 minutes at unit cost 50 is attached; today is day 5. -/
def dbCost : DB :=
  { DB.empty with
    today := 5
    products :=
      [{ id := 1, code := "F", name := "F", group := "TP", batch_spec := none, cost_price := none }
       , { id := 3, code := "M", name := "M", group := "NVL", batch_spec := none, cost_price := none }]
    bom_materials :=
      [{ product_id := 1, material_id := 3, quantity := 2, uom := "kg", cost := none, effective_date := none }]
    bom_labors :=
      [{ product_id := 1, equipment := none, labor_type := none, quantity := none
         , duration_minutes := some 60, unit_cost := some 50 }]
    price_history := [{ material_id := 3, price := 10, quoted_date := 1 }] }

/-- The cost result of `dbCost` for product 1 at the default pricing date. -/
def rCost : CostResult :=
  { product_code := "F"
    product_name := "F"
    pricing_date := 5
    total_material_cost := 20
    total_labor_cost := 50
    total_cost := 70
    material_details :=
      [{ material_code := "M", material_name := "M", quantity := 2, uom := "kg"
         , unit_cost := 10, line_cost := 20 }]
    labor_details :=
      [{ equipment := none, labor_type := none, duration_minutes := some 60
         , quantity := none, unit_cost := some 50, line_cost := 50 }] }

/-- Fixture for the zero-cached-cost fallback: the edge from product 1 to
material 3 carries a cached cost of exactly 0, while the price history quotes
10 on day 1. -/
def dbC10w : DB :=
  { DB.empty with
    today := 5
    products :=
      [{ id := 1, code := "F", name := "F", group := "TP", batch_spec := none, cost_price := none }
       , { id := 3, code := "M", name := "M", group := "NVL", batch_spec := none, cost_price := none }]
    bom_materials :=
      [{ product_id := 1, material_id := 3, quantity := 2, uom := "kg", cost := some 0, effective_date := none }]
    price_history := [{ material_id := 3, price := 10, quoted_date := 1 }] }

/-- Fixture for the cascade recalculation: product 1 uses 2 kg of material 3,
quoted at 10 on day 1; today is day 5. -/
def dbC6 : DB :=
  { DB.empty with
    today := 5
    products :=
      [{ id := 1, code := "F", name := "F", group := "TP", batch_spec := none, cost_price := none }
       , { id := 3, code := "M", name := "M", group := "NVL", batch_spec := none, cost_price := none }]
    bom_materials :=
      [{ product_id := 1, material_id := 3, quantity := 2, uom := "kg", cost := none, effective_date := none }]
    price_history := [{ material_id := 3, price := 10, quoted_date := 1 }] }

/-- Fixture for the netting floor: production order 1 needs 20 kg of
material 3 but 100 kg are on hand in NVL warehouse 1. -/
def dbC7 : DB :=
  { DB.empty with
    products :=
      [{ id := 1, code := "P", name := "P", group := "TP", batch_spec := none, cost_price := none }
       , { id := 3, code := "M", name := "M", group := "NVL", batch_spec := none, cost_price := none }]
    bom_materials :=
      [{ product_id := 1, material_id := 3, quantity := 2, uom := "kg", cost := none, effective_date := none }]
    warehouses := [{ id := 1, type := "NVL" }]
    inventory := [{ product_id := 3, warehouse_id := 1, current_qty := 100 }]
    production_orders :=
      [{ id := 1, business_seq := 1, production_date := 5, order_type := "SP", product_id := 1, planned_qty := 10 }] }

/-- Fixture for the capacity invariant: two sales orders of 800 units of
product 1 each, delivered on days 10 and 11; the run starts on day 10, so both
allocations land on production day 10 against a capacity of 1000. -/
def dbC8 : DB :=
  { DB.empty with
    today := 10
    products :=
      [{ id := 1, code := "F", name := "F", group := "TP", batch_spec := none, cost_price := none }]
    sales_orders :=
      [{ id := 1, delivery_date := 10, status := "new" }
       , { id := 2, delivery_date := 11, status := "new" }]
    sales_order_lines :=
      [{ order_id := 1, product_id := 1, quantity := 800 }
       , { order_id := 2, product_id := 1, quantity := 800 }] }

/-- Fixture for the batch-failure policy: production order 1 explodes normally
while production order 2 references the nonexistent product 99 and so raises
inside the batch loop. -/
def dbC9 : DB :=
  { DB.empty with
    products :=
      [{ id := 1, code := "P", name := "P", group := "TP", batch_spec := none, cost_price := none }
       , { id := 3, code := "M", name := "M", group := "NVL", batch_spec := none, cost_price := none }]
    bom_materials :=
      [{ product_id := 1, material_id := 3, quantity := 2, uom := "kg", cost := none, effective_date := none }]
    production_orders :=
      [{ id := 1, business_seq := 1, production_date := 5, order_type := "SP", product_id := 1, planned_qty := 10 }
       , { id := 2, business_seq := 2, production_date := 5, order_type := "SP", product_id := 99, planned_qty := 7 }] }

/-- `dbC9` with the failing production order removed. -/
def dbC9ok : DB :=
  { dbC9 with
    production_orders :=
      [{ id := 1, business_seq := 1, production_date := 5, order_type := "SP", product_id := 1, planned_qty := 10 }] }

/-- The single BOM-material row `get_bom_materials dbC3 1 (some 10)` returns. -/
def miC3 : MatInfo :=
  { material_id := 3
    material_code := "M"
    material_name := "M"
    quantity := 2
    uom := "kg"
    cost := none
    effective_date := some 5 }

/-- The semi-product S of `dbExplode` when no batch spec is set. -/
def prodS : Product :=
  { id := 2, code := "S", name := "S", group := "BTP", batch_spec := none, cost_price := none }

/-- The component edge of `dbExplode` as seen by the component loop. -/
def siC2 : SemiInfo :=
  { component_id := 2, quantity := 3/2, uom := "unit", operation_sequence := none }

/-- The zero-cached-cost BOM edge of `dbC10w`. -/
def edgeC10 : BomMaterial :=
  { product_id := 1, material_id := 3, quantity := 2, uom := "kg", cost := some 0
    effective_date := none }

/-- The material product of `dbC10w`. -/
def prodMw : Product :=
  { id := 3, code := "M", name := "M", group := "NVL", batch_spec := none, cost_price := none }

/-- The single plan line `calculate_material_requirement_plan` returns on
`dbC7`: 20 kg required, 100 on hand, net requirement floored to 0. -/
def lC7 : PlanLine :=
  { material_id := 3
    material_code := "M"
    material_name := "M"
    total_required_qty := 20
    available_stock := 100
    net_required_qty := 0
    uom := "kg" }

/-- A product with its mutable `cost_price` column erased; the recalculation
loop only ever writes that column, so states reachable from a database agree
with it up to `stripCost`. -/
def stripCost (p : Product) : Product :=
  { p with cost_price := none }

/-- Invariant of the recalculation loops: the product table differs from the
original only in `cost_price`, and every recorded update carries — and has
persisted — the cost computed against the original database. -/
def RecalcInv (db : DB) (st : RecalcState) : Prop :=
  st.prods.map stripCost = db.products.map stripCost ∧
  ∀ u ∈ st.updated,
    (findProduct st.prods u.product_id).map (fun x => x.cost_price)
      = some (some (costTotalD db u.product_id)) ∧
    u.new_cost = costTotalD db u.product_id

/-- Product F of `dbC6`. -/
def prodF6 : Product :=
  { id := 1, code := "F", name := "F", group := "TP", batch_spec := none, cost_price := none }

/-- The (F, M) BOM edge of `dbC6`. -/
def edgeC6 : BomMaterial :=
  { product_id := 1, material_id := 3, quantity := 2, uom := "kg", cost := none
    effective_date := none }

theorem mem_insLe {α : Type} (le : α → α → Bool) (x : α) (l : List α) (a : α) :
    a ∈ insLe le x l ↔ a = x ∨ a ∈ l := by
  induction l with
  | nil => simp [insLe]
  | cons y ys ih =>
    simp only [insLe]
    by_cases h : le x y
    · rw [if_pos h]
      simp
    · rw [if_neg h]
      simp [ih]
      tauto

theorem mem_sortLe {α : Type} (le : α → α → Bool) (l : List α) (a : α) :
    a ∈ sortLe le l ↔ a ∈ l := by
  induction l with
  | nil => simp [sortLe]
  | cons x xs ih => simp [sortLe, mem_insLe, ih]

theorem sortLe_eq_nil_iff {α : Type} (le : α → α → Bool) (l : List α) :
    sortLe le l = [] ↔ l = [] := by
  constructor
  · intro h
    cases l with
    | nil => rfl
    | cons x xs =>
      exfalso
      have hx : x ∈ sortLe le (x :: xs) := (mem_sortLe le _ x).mpr (List.mem_cons_self x xs)
      rw [h] at hx
      exact List.not_mem_nil x hx
  · intro h; subst h; rfl

theorem pairwise_insLe {α : Type} (le : α → α → Bool)
    (htot : ∀ a b, le a b = true ∨ le b a = true)
    (htrans : ∀ a b c, le a b = true → le b c = true → le a c = true)
    (x : α) (l : List α) (hl : l.Pairwise (fun a b => le a b = true)) :
    (insLe le x l).Pairwise (fun a b => le a b = true) := by
  induction l with
  | nil => simp [insLe]
  | cons y ys ih =>
    rcases List.pairwise_cons.mp hl with ⟨hy, hys⟩
    simp only [insLe]
    by_cases h : le x y
    · rw [if_pos h]
      refine List.pairwise_cons.mpr ⟨?_, hl⟩
      intro z hz
      rcases List.mem_cons.mp hz with hz | hz
      · subst hz; exact h
      · exact htrans x y z h (hy z hz)
    · rw [if_neg h]
      refine List.pairwise_cons.mpr ⟨?_, ih hys⟩
      intro z hz
      rcases (mem_insLe le x ys z).mp hz with hz | hz
      · rw [hz]
        rcases htot x y with hxy | hyx
        · exact absurd hxy h
        · exact hyx
      · exact hy z hz

theorem pairwise_sortLe {α : Type} (le : α → α → Bool)
    (htot : ∀ a b, le a b = true ∨ le b a = true)
    (htrans : ∀ a b c, le a b = true → le b c = true → le a c = true)
    (l : List α) : (sortLe le l).Pairwise (fun a b => le a b = true) := by
  induction l with
  | nil => simp [sortLe]
  | cons x xs ih => exact pairwise_insLe le htot htrans x _ ih

theorem head_sortLe_le {α : Type} (le : α → α → Bool)
    (htot : ∀ a b, le a b = true ∨ le b a = true)
    (htrans : ∀ a b c, le a b = true → le b c = true → le a c = true)
    (l : List α) (h : α) (hh : (sortLe le l).head? = some h) :
    h ∈ l ∧ ∀ b ∈ l, le h b = true := by
  cases hs : sortLe le l with
  | nil => rw [hs] at hh; exact absurd hh (by simp)
  | cons h0 t =>
    rw [hs] at hh
    simp only [List.head?_cons, Option.some.injEq] at hh
    rw [hh] at hs
    constructor
    · exact (mem_sortLe le l h).mp (by rw [hs]; exact List.mem_cons_self h t)
    · intro b hb
      have hbs : b ∈ sortLe le l := (mem_sortLe le l b).mpr hb
      rw [hs] at hbs
      rcases List.mem_cons.mp hbs with hbs | hbs
      · subst hbs
        rcases htot b b with hbb | hbb
        · exact hbb
        · exact hbb
      · have hp := pairwise_sortLe le htot htrans l
        rw [hs] at hp
        exact (List.pairwise_cons.mp hp).1 b hbs

theorem mem_dedupeAux {α : Type} (key : α → Nat) :
    ∀ (l : List α) (seen : List Nat) (a : α), a ∈ dedupeAux key seen l → a ∈ l := by
  intro l
  induction l with
  | nil => intro seen a h; simp [dedupeAux] at h
  | cons x xs ih =>
    intro seen a h
    simp only [dedupeAux] at h
    by_cases hx : key x ∈ seen
    · rw [if_pos hx] at h
      exact List.mem_cons_of_mem x (ih seen a h)
    · rw [if_neg hx] at h
      rcases List.mem_cons.mp h with h | h
      · subst h; exact List.mem_cons_self a xs
      · exact List.mem_cons_of_mem x (ih _ a h)

theorem dedupeAux_key_not_seen {α : Type} (key : α → Nat) :
    ∀ (l : List α) (seen : List Nat) (a : α), a ∈ dedupeAux key seen l → key a ∉ seen := by
  intro l
  induction l with
  | nil => intro seen a h; simp [dedupeAux] at h
  | cons x xs ih =>
    intro seen a h
    simp only [dedupeAux] at h
    by_cases hx : key x ∈ seen
    · rw [if_pos hx] at h
      exact ih seen a h
    · rw [if_neg hx] at h
      rcases List.mem_cons.mp h with h | h
      · subst h; exact hx
      · intro hc
        exact ih _ a h (List.mem_cons_of_mem _ hc)

theorem pairwise_dedupeAux {α : Type} (key : α → Nat) :
    ∀ (l : List α) (seen : List Nat),
      (dedupeAux key seen l).Pairwise (fun a b => key a ≠ key b) := by
  intro l
  induction l with
  | nil => intro seen; simp [dedupeAux]
  | cons x xs ih =>
    intro seen
    simp only [dedupeAux]
    by_cases hx : key x ∈ seen
    · rw [if_pos hx]; exact ih seen
    · rw [if_neg hx]
      refine List.pairwise_cons.mpr ⟨?_, ih _⟩
      intro b hb
      have := dedupeAux_key_not_seen key xs (key x :: seen) b hb
      intro hc
      exact this (hc ▸ List.mem_cons_self _ _)

theorem dedupeAux_dominates {α : Type} (key : α → Nat) (R : α → α → Prop) :
    ∀ (l : List α) (seen : List Nat) (a b : α), l.Pairwise R →
      a ∈ dedupeAux key seen l → b ∈ l → key a = key b → a = b ∨ R a b := by
  intro l
  induction l with
  | nil => intro seen a b _ ha; simp [dedupeAux] at ha
  | cons x xs ih =>
    intro seen a b hl ha hb hk
    rcases List.pairwise_cons.mp hl with ⟨hx, hxs⟩
    simp only [dedupeAux] at ha
    by_cases hxseen : key x ∈ seen
    · rw [if_pos hxseen] at ha
      rcases List.mem_cons.mp hb with hb | hb
      · exfalso
        have := dedupeAux_key_not_seen key xs seen a ha
        subst hb
        exact this (hk ▸ hxseen)
      · exact ih seen a b hxs ha hb hk
    · rw [if_neg hxseen] at ha
      rcases List.mem_cons.mp ha with ha | ha
      · subst ha
        rcases List.mem_cons.mp hb with hb | hb
        · exact Or.inl hb.symm
        · exact Or.inr (hx b hb)
      · rcases List.mem_cons.mp hb with hb | hb
        · exfalso
          have := dedupeAux_key_not_seen key xs (key x :: seen) a ha
          subst hb
          exact this (hk ▸ List.mem_cons_self _ _)
        · exact ih _ a b hxs ha hb hk


theorem effLe_refl (a : Option Nat) : effLe a a = true := by
  cases a <;> simp [effLe]

theorem effLe_total (a b : Option Nat) : effLe a b = true ∨ effLe b a = true := by
  cases a <;> cases b <;> simp [effLe] <;> omega

theorem effLe_trans (a b c : Option Nat) :
    effLe a b = true → effLe b c = true → effLe a c = true := by
  cases a <;> cases b <;> cases c <;> simp [effLe] <;> omega

/-- C3 (amended): `get_bom_materials` returns at most one entry per material
id; every entry is a single joined BOM edge (carrying that edge's quantity and
cached cost), never a sum over versions; when an as-of date is supplied every
returned edge's effective date is on or before it; and the returned edge's
effective date dominates every other candidate edge of the same material in
the `DESC NULLS LAST` order — with no date supplied (as in the explosion) the
dominant edge is the latest overall, future-dated edges included. -/
theorem C3_single_latest_edge (db : DB) (pid : Nat) (eff : Option Nat) :
    (get_bom_materials db pid eff).Pairwise (fun a b => a.material_id ≠ b.material_id) ∧
    (∀ a ∈ get_bom_materials db pid eff, a ∈ bomRows db pid eff) ∧
    (∀ d, eff = some d → ∀ a ∈ get_bom_materials db pid eff,
      ∀ ed, a.effective_date = some ed → ed ≤ d) ∧
    (∀ a ∈ get_bom_materials db pid eff, ∀ b ∈ bomRows db pid eff,
      b.material_id = a.material_id → effLe a.effective_date b.effective_date = true) := by
  have htot : ∀ a b : MatInfo, effLe a.effective_date b.effective_date = true ∨
      effLe b.effective_date a.effective_date = true :=
    fun a b => effLe_total _ _
  have htrans : ∀ a b c : MatInfo, effLe a.effective_date b.effective_date = true →
      effLe b.effective_date c.effective_date = true →
      effLe a.effective_date c.effective_date = true :=
    fun a b c => effLe_trans _ _ _
  have hsub : ∀ a ∈ get_bom_materials db pid eff, a ∈ bomRows db pid eff := by
    intro a ha
    have h1 := mem_dedupeAux (fun x : MatInfo => x.material_id) _ _ a ha
    exact (mem_sortLe _ _ a).mp h1
  refine ⟨pairwise_dedupeAux _ _ _, hsub, ?_, ?_⟩
  · intro d hd a ha ed hed
    have hb : a ∈ bomRows db pid eff := hsub a ha
    rcases List.mem_filterMap.mp hb with ⟨e, he, hfe⟩
    rcases Option.map_eq_some'.mp hfe with ⟨m, _, hmk⟩
    have hdate : a.effective_date = e.effective_date := by rw [← hmk]; rfl
    have hpred := (List.mem_filter.mp he).2
    rw [Bool.and_eq_true] at hpred
    have hok : effOk eff e = true := hpred.2
    subst hd
    rw [hdate] at hed
    rw [effOk, hed] at hok
    exact of_decide_eq_true hok
  · intro a ha b hb hk
    have hbs : b ∈ sortLe (fun x y : MatInfo => effLe x.effective_date y.effective_date)
        (bomRows db pid eff) := (mem_sortLe _ _ b).mpr hb
    have hp := pairwise_sortLe (fun x y : MatInfo => effLe x.effective_date y.effective_date)
      htot htrans (bomRows db pid eff)
    have hdom := dedupeAux_dominates (fun x : MatInfo => x.material_id)
      (fun x y : MatInfo => effLe x.effective_date y.effective_date = true)
      _ [] a b hp ha hbs hk.symm
    rcases hdom with hdom | hdom
    · rw [hdom]; exact effLe_refl _
    · exact hdom

/-- C3 counterexample: on `dbC3` (edges for (F, M) effective on day 5 with
quantity 2 and on day 100 with quantity 9, today = day 10) the explosion of
production order 1 requires 9 kg of M — the future-dated version — not the
2 kg of the latest edge effective on or before day 10 that the claim
prescribes. -/
theorem C3_counterexample :
    reqQtyOf (calculate_material_requirements_for_production_order dbC3 1) 3 = some 9 ∧
    reqQtyOf (calculate_material_requirements_for_production_order dbC3 1) 3 ≠ some 2 := by
  constructor <;>
    norm_num [reqQtyOf, calculate_material_requirements_for_production_order, findPO, dbC3,
      DB.empty, findProduct, get_bom_materials, get_bom_semi_products, bomRows, dedupeByKey,
      dedupeAux, sortLe, insLe, effLe, effOk, mkInfo, optNormQ, optTruthy, setReq, List.find?,
      List.filter, List.filterMap, List.foldl]

/-- Witness for C3: on `dbC3` as of day 10 the single returned edge is the
day-5 one, and it dominates itself in the version order. -/
theorem C3_witness :
    miC3 ∈ get_bom_materials dbC3 1 (some 10) ∧ effLe (some 5) (some 5) = true := by
  have hmem : miC3 ∈ get_bom_materials dbC3 1 (some 10) := by decide
  have hb : miC3 ∈ bomRows dbC3 1 (some 10) := by decide
  exact ⟨hmem, (C3_single_latest_edge dbC3 1 (some 10)).2.2.2 _ hmem _ hb rfl⟩

/-- C4: the price lookup returns `None` exactly when the material has no quote
on or before the pricing date, and otherwise returns the price of a quote of
that material dated on or before the pricing date whose quoted date is maximal
among all such quotes. -/
theorem C4_price_lookup (db : DB) (mid : Nat) (pd : Option Nat) :
    (get_material_price db mid pd = none ↔
      ∀ en ∈ db.price_history, en.material_id = mid → pd.getD db.today < en.quoted_date) ∧
    (∀ p, get_material_price db mid pd = some p →
      ∃ en ∈ db.price_history, en.material_id = mid ∧ en.quoted_date ≤ pd.getD db.today ∧
        en.price = p ∧
        ∀ e2 ∈ db.price_history, e2.material_id = mid →
          e2.quoted_date ≤ pd.getD db.today → e2.quoted_date ≤ en.quoted_date) := by
  have htot : ∀ a b : PriceEntry, decide (b.quoted_date ≤ a.quoted_date) = true ∨
      decide (a.quoted_date ≤ b.quoted_date) = true := by
    intro a b
    simp only [decide_eq_true_eq]
    omega
  have htrans : ∀ a b c : PriceEntry, decide (b.quoted_date ≤ a.quoted_date) = true →
      decide (c.quoted_date ≤ b.quoted_date) = true →
      decide (c.quoted_date ≤ a.quoted_date) = true := by
    intro a b c
    simp only [decide_eq_true_eq]
    omega
  constructor
  · rw [get_material_price]
    simp only [Option.map_eq_none', List.head?_eq_none_iff, sortLe_eq_nil_iff,
      List.filter_eq_nil_iff]
    constructor
    · intro h en hen hmid
      have := h en hen
      simp [hmid] at this
      omega
    · intro h en hen
      by_cases hmid : en.material_id = mid
      · have := h en hen hmid
        simp [hmid]
        omega
      · simp [hmid]
  · intro p hp
    rw [get_material_price] at hp
    rcases Option.map_eq_some'.mp hp with ⟨en, hhead, hprice⟩
    have hmax := head_sortLe_le
      (fun a b : PriceEntry => decide (b.quoted_date ≤ a.quoted_date)) htot htrans _ en hhead
    have henr := hmax.1
    have hfil := List.mem_filter.mp henr
    have hpred := hfil.2
    rw [Bool.and_eq_true] at hpred
    have hmid : en.material_id = mid := by simpa using hpred.1
    have hdate : en.quoted_date ≤ pd.getD db.today := by simpa using hpred.2
    refine ⟨en, hfil.1, hmid, hdate, hprice, ?_⟩
    intro e2 he2 hmid2 hdate2
    have he2r : e2 ∈ db.price_history.filter
        (fun en => en.material_id == mid && decide (en.quoted_date ≤ pd.getD db.today)) := by
      refine List.mem_filter.mpr ⟨he2, ?_⟩
      simp [hmid2, hdate2]
    have := hmax.2 e2 he2r
    simpa using this

/-- Witness for C4: on `dbC4` as of day 6 the lookup returns 20, the price of
the day-5 quote, which is maximal among the quotes on or before day 6. -/
theorem C4_witness :
    ∃ en ∈ dbC4.price_history, en.material_id = 3 ∧ en.quoted_date ≤ 6 ∧ en.price = 20 ∧
      ∀ e2 ∈ dbC4.price_history, e2.material_id = 3 →
        e2.quoted_date ≤ 6 → e2.quoted_date ≤ en.quoted_date := by
  have hv : get_material_price dbC4 3 (some 6) = some 20 := by
    norm_num [get_material_price, dbC4, DB.empty, sortLe, insLe, List.filter]
  have h := (C4_price_lookup dbC4 3 (some 6)).2 20 hv
  simpa using h

theorem optTruthy_eq_false_iff (o : Option ℚ) :
    optTruthy o = false ↔ o = none ∨ o = some 0 := by
  cases o with
  | none => simp [optTruthy]
  | some v => simp [optTruthy]

theorem optNormQ_eq_none_iff (o : Option ℚ) :
    optNormQ o = none ↔ o = none ∨ o = some 0 := by
  rw [optNormQ]
  by_cases h : optTruthy o
  · rw [if_pos h]
    cases o with
    | none => simp [optTruthy] at h
    | some v =>
      simp
      intro hv
      rw [hv] at h
      simp [optTruthy] at h
  · rw [if_neg h]
    simp
    exact (optTruthy_eq_false_iff o).mp (Bool.eq_false_iff.mpr h)

theorem optNormQ_eq_some_iff (o : Option ℚ) (v : ℚ) :
    optNormQ o = some v ↔ o = some v ∧ v ≠ 0 := by
  rw [optNormQ]
  by_cases h : optTruthy o
  · rw [if_pos h]
    cases o with
    | none => simp [optTruthy] at h
    | some w =>
      simp [optTruthy] at h
      simp
      intro hw
      rw [← hw]
      exact h
  · rw [if_neg h]
    have := (optTruthy_eq_false_iff o).mp (Bool.eq_false_iff.mpr h)
    constructor
    · intro hc; exact absurd hc (by simp)
    · intro hc
      rcases this with hn | hz
      · rw [hn] at hc; exact absurd hc.1 (by simp)
      · rw [hz] at hc
        have := hc.1
        simp at this
        exact absurd this.symm hc.2

/-- C5: the cost result satisfies `totalCost = materialCost + laborCost`, the
material cost is the sum of the line costs of the breakdown, every material
line cost is `quantity * unit_cost`, the labor cost is the sum of the labor
line costs, and each labor line cost follows the duration-then-quantity
formula of the source. -/
theorem C5_cost_additivity (db : DB) (pid : Nat) (pd : Option Nat) (r : CostResult)
    (h : calculate_product_cost_from_bom db pid pd = some r) :
    r.total_cost = r.total_material_cost + r.total_labor_cost ∧
    r.total_material_cost = (r.material_details.map (fun ln => ln.line_cost)).sum ∧
    (∀ ln ∈ r.material_details, ln.line_cost = ln.quantity * ln.unit_cost) ∧
    r.total_labor_cost = (r.labor_details.map (fun ld => ld.line_cost)).sum ∧
    (∀ ld ∈ r.labor_details,
      (ld.unit_cost = none → ld.line_cost = 0) ∧
      (∀ uc, ld.unit_cost = some uc → optTruthyN ld.duration_minutes = true →
        ld.line_cost = ((ld.duration_minutes.getD 0 : ℚ) / 60) * uc) ∧
      (∀ uc q, ld.unit_cost = some uc → optTruthyN ld.duration_minutes = false →
        ld.quantity = some q → ld.line_cost = q * uc)) := by
  rw [calculate_product_cost_from_bom] at h
  cases hfp : findProduct db.products pid with
  | none => rw [hfp] at h; exact absurd h (by simp)
  | some p =>
    rw [hfp] at h
    simp only [Option.some.injEq] at h
    subst h
    refine ⟨rfl, rfl, ?_, rfl, ?_⟩
    · intro ln hln
      rcases List.mem_map.mp hln with ⟨mi, _, hmi⟩
      rw [← hmi]
      rfl
    · intro ld hld
      rcases List.mem_map.mp hld with ⟨l, _, hl⟩
      subst hl
      refine ⟨?_, ?_, ?_⟩
      · intro hnone
        have huc : optTruthy l.unit_cost = false := by
          rcases (optNormQ_eq_none_iff l.unit_cost).mp hnone with h1 | h1 <;>
            rw [h1] <;> simp [optTruthy]
        simp [laborLineOf, huc]
      · intro uc hsome hdur
        rcases (optNormQ_eq_some_iff l.unit_cost uc).mp hsome with ⟨hval, hne⟩
        have hdur2 : optTruthyN l.duration_minutes = true := hdur
        simp [laborLineOf, hval, hdur2, optTruthy, hne]
      · intro uc q hsome hdur hq
        rcases (optNormQ_eq_some_iff l.unit_cost uc).mp hsome with ⟨hval, hne⟩
        have hdur2 : optTruthyN l.duration_minutes = false := hdur
        rcases (optNormQ_eq_some_iff l.quantity q).mp hq with ⟨hqval, hqne⟩
        simp [laborLineOf, hval, hqval, hdur2, optTruthy, hne, hqne]

/-- Witness for C5: the costing of product 1 of `dbCost` returns material cost
20, labor cost 50 and total 70, and the theorem yields the additivity. -/
theorem C5_witness :
    calculate_product_cost_from_bom dbCost 1 none = some rCost ∧
    rCost.total_cost = rCost.total_material_cost + rCost.total_labor_cost := by
  have hv : calculate_product_cost_from_bom dbCost 1 none = some rCost := by
    norm_num [calculate_product_cost_from_bom, dbCost, DB.empty, rCost, findProduct,
      get_bom_materials, bomRows, dedupeByKey, dedupeAux, sortLe, insLe, effOk, mkInfo,
      optNormQ, optTruthy, costLineOf, laborLineOf, get_material_price, optTruthyN,
      List.find?, List.filter, List.filterMap]
  exact ⟨hv, (C5_cost_additivity dbCost 1 none rCost hv).1⟩

/-- C10: a BOM edge whose cached cost is `None` or exactly `0` enters the
costing with no cached cost; its line's unit cost is the price-history value
as of the pricing date, is that price whenever one exists, and is `0` exactly
when the lookup is also absent; and the costing's material lines are exactly
the per-edge resolutions of the effective BOM. -/
theorem C10_zero_cached_cost (db : DB) (d : Nat) (e : BomMaterial) (m : Product)
    (h : e.cost = none ∨ e.cost = some 0) :
    (mkInfo e m).cost = none ∧
    (costLineOf db d (mkInfo e m)).unit_cost = (get_material_price db m.id (some d)).getD 0 ∧
    (∀ pr, get_material_price db m.id (some d) = some pr →
      (costLineOf db d (mkInfo e m)).unit_cost = pr) ∧
    (get_material_price db m.id (some d) = none →
      (costLineOf db d (mkInfo e m)).unit_cost = 0) ∧
    (∀ pid r, calculate_product_cost_from_bom db pid (some d) = some r →
      r.material_details = (get_bom_materials db pid (some d)).map (costLineOf db d)) := by
  have hc : (mkInfo e m).cost = none := by
    rw [mkInfo]
    exact (optNormQ_eq_none_iff e.cost).mpr h
  have hmid : (mkInfo e m).material_id = m.id := rfl
  have huc : (costLineOf db d (mkInfo e m)).unit_cost =
      (get_material_price db m.id (some d)).getD 0 := by
    rw [costLineOf, hc]
    simp [optTruthy, hmid]
  refine ⟨hc, huc, ?_, ?_, ?_⟩
  · intro pr hpr
    rw [huc, hpr]
    rfl
  · intro hnone
    rw [huc, hnone]
    rfl
  · intro pid r hr
    rw [calculate_product_cost_from_bom] at hr
    cases hfp : findProduct db.products pid with
    | none => rw [hfp] at hr; exact absurd hr (by simp)
    | some p =>
      rw [hfp] at hr
      simp only [Option.some.injEq] at hr
      rw [← hr]
      simp

/-- Witness for C10: on `dbC10w` the edge caches a cost of exactly 0, yet the
line's unit cost is the price-history value 10. -/
theorem C10_witness :
    (costLineOf dbC10w 5 (mkInfo edgeC10 prodMw)).unit_cost = 10 := by
  have hv : get_material_price dbC10w 3 (some 5) = some 10 := by decide
  have h := C10_zero_cached_cost dbC10w 5 edgeC10 prodMw (Or.inr rfl)
  exact h.2.2.1 10 hv

/-- C7: every line the material-requirement netting returns has a non-negative
net required quantity, whatever the demand and on-hand stock are. -/
theorem C7_netting_floor (db : DB) (s e : Option Nat) (deduct : Bool) :
    ∀ r ∈ calculate_material_requirement_plan db s e deduct, 0 ≤ r.net_required_qty := by
  intro r hr
  rw [calculate_material_requirement_plan] at hr
  rcases List.mem_map.mp hr with ⟨a, _, ha⟩
  rw [← ha]
  simp only [netLine]
  exact le_max_left 0 _

/-- Witness for C7: on `dbC7` demand 20 nets against stock 100 to exactly 0,
which is non-negative. -/
theorem C7_witness :
    calculate_material_requirement_plan dbC7 (some 0) (some 10) true = [lC7] ∧
    0 ≤ lC7.net_required_qty := by
  have hv : calculate_material_requirement_plan dbC7 (some 0) (some 10) true = [lC7] := by
    norm_num [calculate_material_requirement_plan, dbC7, DB.empty, lC7, mrpAggregate,
      inRangeOrders, mrpStep, addAgg, updateAgg, netLine, stockOfType, findWarehouse,
      calculate_material_requirements_for_production_order, findPO, findProduct,
      get_bom_materials, get_bom_semi_products, bomRows, dedupeByKey, dedupeAux, sortLe,
      insLe, effOk, mkInfo, optNormQ, optTruthy, setReq, List.find?, List.filter,
      List.filterMap, List.foldl]
  refine ⟨hv, C7_netting_floor dbC7 (some 0) (some 10) true lC7 ?_⟩
  rw [hv]
  exact List.mem_singleton.mpr rfl

theorem foldl_mrpStep_filter (db : DB) :
    ∀ (pos : List ProductionOrder) (acc : List AggEntry),
      pos.foldl (mrpStep db) acc =
        (pos.filter (fun po =>
          (calculate_material_requirements_for_production_order db po.id).isSome)).foldl
            (mrpStep db) acc := by
  intro pos
  induction pos with
  | nil => intro acc; rfl
  | cons po rest ih =>
    intro acc
    by_cases h : (calculate_material_requirements_for_production_order db po.id).isSome
    · rw [List.foldl_cons, List.filter_cons, if_pos (by simpa using h), List.foldl_cons]
      exact ih _
    · have hnone : calculate_material_requirements_for_production_order db po.id = none :=
        Option.not_isSome_iff_eq_none.mp h
      have hstep : mrpStep db acc po = acc := by
        rw [mrpStep, hnone]
      rw [List.foldl_cons, List.filter_cons, if_neg (by simpa using h), hstep]
      exact ih acc

/-- C9 (amended): a production order whose explosion raises is skipped and
contributes nothing — the aggregation equals the aggregation over only the
succeeding orders — so partial results are returned; however the skipped ids
are not part of the returned value (see the counterexample, where the run with
a failing order returns a value identical to the run without it). -/
theorem C9_skip_failures (db : DB) (pos : List ProductionOrder) :
    mrpAggregate db pos =
      mrpAggregate db (pos.filter (fun po =>
        (calculate_material_requirements_for_production_order db po.id).isSome)) := by
  rw [mrpAggregate, mrpAggregate]
  exact foldl_mrpStep_filter db pos []

/-- C9 counterexample: on `dbC9` production order 2 fails (its product 99 does
not exist), yet the returned plan is exactly the one returned on `dbC9ok`,
which has no failing order — the return value carries no list of skipped ids,
contrary to the claim. -/
theorem C9_counterexample :
    calculate_material_requirement_plan dbC9 (some 0) (some 10) false
      = calculate_material_requirement_plan dbC9ok (some 0) (some 10) false ∧
    (calculate_material_requirements_for_production_order dbC9 2).isNone ∧
    dbC9.production_orders ≠ dbC9ok.production_orders := by
  refine ⟨?_, by decide, by decide⟩
  simp [calculate_material_requirement_plan, dbC9, dbC9ok, DB.empty, mrpAggregate,
    inRangeOrders, mrpStep, addAgg, updateAgg, netLine, stockOfType, findWarehouse,
    calculate_material_requirements_for_production_order, findPO, findProduct,
    get_bom_materials, get_bom_semi_products, bomRows, dedupeByKey, dedupeAux, sortLe,
    insLe, effOk, mkInfo, optNormQ, optTruthy, setReq, List.find?, List.filter,
    List.filterMap, List.foldl]

/-- C1 counterexample: exploding the spec's own scenario (product F needs 1.5
units of semi-product S per unit, S has batch spec "20" and needs 5 kg of M
per batch) for quantity 100 yields 100 * 1.5 / 20 * 5 = 37.5 kg of M, not the
40 kg that `ceil(150 / 20) = 8` batches would give: the source divides the
child demand by the batch size without rounding up. -/
theorem C1_counterexample :
    reqQtyOf (calculate_material_requirements_for_production_order
      (dbExplode 100 (3/2) 5 (some "20")) 1) 3 = some (75/2) ∧
    reqQtyOf (calculate_material_requirements_for_production_order
      (dbExplode 100 (3/2) 5 (some "20")) 1) 3 ≠ some 40 := by
  have hv : reqQtyOf (calculate_material_requirements_for_production_order
      (dbExplode 100 (3/2) 5 (some "20")) 1) 3 = some (75/2) := by
    simp [reqQtyOf, calculate_material_requirements_for_production_order, dbExplode, DB.empty,
      findPO, findProduct, get_bom_materials, get_bom_semi_products, bomRows, dedupeByKey,
      dedupeAux, sortLe, insLe, seqLe, effLe, effOk, mkInfo, optNormQ, optTruthy, setReq,
      processSemi, parseBatchSpec, findFirstNumber, takeDigits, digitsToNat, bumpBtp,
      bumpDirect, updateReq, List.find?, List.filter, List.filterMap, List.foldl, List.any]
    norm_num
  refine ⟨hv, ?_⟩
  rw [hv]
  intro hc
  simp only [Option.some.injEq] at hc
  norm_num at hc

/-- C1 (amended): for a semi-product child whose batch spec parses to a
positive batch size `b`, the explosion computes the fractional batch count
`childDemand / b` — with no ceiling — and adds that count times each
per-batch material quantity; on the spec's scenario this yields 37.5 kg of M,
not 40. -/
theorem C1_fractional_batch_count (q c m b : ℚ) (spec : String)
    (hparse : parseBatchSpec spec = some b) (hb : 0 < b) :
    reqQtyOf (calculate_material_requirements_for_production_order
      (dbExplode q c m (some spec)) 1) 3 = some (q * c / b * m) := by
  have hne : spec ≠ "" := by
    intro h
    rw [h] at hparse
    exact absurd hparse (by simp [parseBatchSpec, findFirstNumber])
  simp [reqQtyOf, calculate_material_requirements_for_production_order, dbExplode, DB.empty,
    findPO, findProduct, get_bom_materials, get_bom_semi_products, bomRows, dedupeByKey,
    dedupeAux, sortLe, insLe, seqLe, effLe, effOk, mkInfo, optNormQ, optTruthy, setReq,
    processSemi, hparse, hne, hb, bumpBtp, bumpDirect, updateReq,
    List.find?, List.filter, List.filterMap, List.foldl, List.any]

/-- Witness for C1: instantiating the amended theorem at the spec's scenario
(q = 100, c = 1.5, batch spec "20", m = 5) gives 37.5 kg of M. -/
theorem C1_witness :
    parseBatchSpec "20" = some 20 ∧ (0 : ℚ) < 20 ∧
    reqQtyOf (calculate_material_requirements_for_production_order
      (dbExplode 100 (3/2) 5 (some "20")) 1) 3 = some (100 * (3/2) / 20 * 5) := by
  refine ⟨by decide, by norm_num, ?_⟩
  exact C1_fractional_batch_count 100 (3/2) 5 20 "20" (by decide) (by norm_num)

/-- C2 counterexample: with the same scenario but no batch spec on S, the
explosion returns an empty requirement list — S's subtree is dropped entirely,
so M does not appear at all, rather than appearing with one batch's 5 kg. -/
theorem C2_counterexample :
    calculate_material_requirements_for_production_order
      (dbExplode 100 (3/2) 5 none) 1 = some [] ∧
    reqQtyOf (calculate_material_requirements_for_production_order
      (dbExplode 100 (3/2) 5 none) 1) 3 = none := by
  constructor
  · simp [calculate_material_requirements_for_production_order, dbExplode, DB.empty,
      findPO, findProduct, get_bom_materials, get_bom_semi_products, bomRows, dedupeByKey,
      dedupeAux, sortLe, insLe, seqLe, effOk, mkInfo, optNormQ, optTruthy, setReq,
      processSemi, List.find?, List.filter, List.filterMap, List.foldl]
  · simp [reqQtyOf, calculate_material_requirements_for_production_order, dbExplode, DB.empty,
      findPO, findProduct, get_bom_materials, get_bom_semi_products, bomRows, dedupeByKey,
      dedupeAux, sortLe, insLe, seqLe, effOk, mkInfo, optNormQ, optTruthy, setReq,
      processSemi, List.find?, List.filter, List.filterMap, List.foldl]

/-- C2 (amended): a BTP component whose batch spec is absent (`None` or the
empty string) contributes nothing to the explosion — its subtree is omitted,
not treated as one batch — and `calculate_batch_count` likewise reports zero
batches for an absent spec. -/
theorem C2_absent_spec_skips_subtree (db : DB) (q : ℚ) (acc : List MatReq) (si : SemiInfo)
    (comp : Product) (hf : findProduct db.products si.component_id = some comp)
    (hg : comp.group = "BTP")
    (hs : comp.batch_spec = none ∨ comp.batch_spec = some "") :
    processSemi db q acc si = acc ∧
    (∀ q2, calculate_batch_count q2 comp.batch_spec = 0) := by
  constructor
  · rcases hs with hs | hs
    · rw [processSemi, hf]
      simp [hg, hs]
    · rw [processSemi, hf]
      simp [hg, hs]
  · intro q2
    rcases hs with hs | hs <;> rw [hs] <;> simp [calculate_batch_count]

/-- Witness for C2: on the no-batch-spec scenario the component loop body
leaves the accumulator unchanged and the batch count of 7 units is 0. -/
theorem C2_witness :
    processSemi (dbExplode 100 (3/2) 5 none) 100 [] siC2 = [] ∧
    calculate_batch_count 7 prodS.batch_spec = 0 := by
  have hf : findProduct (dbExplode 100 (3/2) 5 none).products siC2.component_id
      = some prodS := by decide
  have h := C2_absent_spec_skips_subtree (dbExplode 100 (3/2) 5 none) 100 [] siC2 prodS
    hf rfl (Or.inl rfl)
  exact ⟨h.1, h.2 7⟩

/-- C8: the code violates the capacity invariant its own docstring states
("tôn trọng công_suất_max").  On `dbC8` two 800-unit demand entries of
product 1 (deliveries on days 10 and 11, run starting day 10) both land on
production day 10 because the capacity check reads `ordered_qty` — which stays
0 for rows created by the run — instead of the quantity already planned: the
resulting plan day carries 1600 planned units against a capacity of 1000. -/
theorem C8_capacity_exceeded :
    (generate_production_orders_from_sales_orders dbC8 (some 10) (some 40) true).plan_days
      = [{ product_id := 1, production_date := 10, planned_qty := 1600, ordered_qty := 0,
           remaining_qty := 1600, capacity_max := 1000 }] ∧
    ¬ ((1600 : ℚ) ≤ 1000) := by
  constructor
  · simp [generate_production_orders_from_sales_orders, dbC8, DB.empty,
      aggregate_demand_from_orders, findSalesOrder, addNested, addDate, processProduct,
      findProduct, stockOfType, findWarehouse, allocDateStep, create_production_plan_day,
      updatePlanFirst, create_production_order_from_demand, sortLe, insLe,
      List.find?, List.filter, List.filterMap, List.foldl, List.any]
    norm_num
  · norm_num

theorem filterMap_congr_local {α β : Type} (f g : α → Option β) (l : List α)
    (h : ∀ a ∈ l, f a = g a) : l.filterMap f = l.filterMap g := by
  induction l with
  | nil => rfl
  | cons x xs ih =>
    rw [List.filterMap_cons, List.filterMap_cons, h x (List.mem_cons_self x xs),
      ih (fun a ha => h a (List.mem_cons_of_mem x ha))]

theorem setCostPrice_strip (ps : List Product) (q : Nat) (v : ℚ) :
    (setCostPrice ps q v).map stripCost = ps.map stripCost := by
  induction ps with
  | nil => rfl
  | cons p rest ih =>
    simp only [setCostPrice, List.map_cons] at ih ⊢
    by_cases h : p.id = q
    · simp only [if_pos h, stripCost]
      rw [ih]
    · simp only [if_neg h]
      rw [ih]

theorem findProduct_strip_eq (ps ps2 : List Product)
    (h : ps.map stripCost = ps2.map stripCost) (pid : Nat) :
    (findProduct ps pid).map stripCost = (findProduct ps2 pid).map stripCost := by
  induction ps generalizing ps2 with
  | nil =>
    cases ps2 with
    | nil => rfl
    | cons p2 rest2 => exact absurd h (by simp)
  | cons p rest ih =>
    cases ps2 with
    | nil => exact absurd h (by simp)
    | cons p2 rest2 =>
      simp only [List.map_cons, List.cons.injEq] at h
      obtain ⟨h1, h2⟩ := h
      have hid : p.id = p2.id := by
        have := congrArg (fun x => x.id) h1
        simpa [stripCost] using this
      rw [findProduct, findProduct]
      by_cases hp : (p.id == pid) = true
      · rw [List.find?_cons_of_pos rest hp,
          List.find?_cons_of_pos rest2 (show (p2.id == pid) = true by rw [← hid]; exact hp)]
        simpa using h1
      · rw [List.find?_cons_of_neg rest hp,
          List.find?_cons_of_neg rest2 (show ¬(p2.id == pid) = true by rw [← hid]; exact hp)]
        exact ih rest2 h2

theorem bomRows_strip (db : DB) (ps : List Product)
    (h : ps.map stripCost = db.products.map stripCost) (pid : Nat) (eff : Option Nat) :
    bomRows { db with products := ps } pid eff = bomRows db pid eff := by
  rw [bomRows, bomRows]
  apply filterMap_congr_local
  intro e _
  have hfind := findProduct_strip_eq ps db.products h e.material_id
  have hstep : ∀ (o : Option Product),
      o.map (fun m => mkInfo e m) = (o.map stripCost).map (fun m => mkInfo e m) := by
    intro o
    cases o with
    | none => rfl
    | some m => rfl
  rw [hstep (findProduct ps e.material_id), hfind,
    ← hstep (findProduct db.products e.material_id)]

theorem get_bom_materials_strip (db : DB) (ps : List Product)
    (h : ps.map stripCost = db.products.map stripCost) (pid : Nat) (eff : Option Nat) :
    get_bom_materials { db with products := ps } pid eff = get_bom_materials db pid eff := by
  rw [get_bom_materials, get_bom_materials, bomRows_strip db ps h]

theorem cost_strip (db : DB) (ps : List Product)
    (h : ps.map stripCost = db.products.map stripCost) (pid : Nat) (pd : Option Nat) :
    calculate_product_cost_from_bom { db with products := ps } pid pd
      = calculate_product_cost_from_bom db pid pd := by
  have hf := findProduct_strip_eq ps db.products h pid
  rw [calculate_product_cost_from_bom, calculate_product_cost_from_bom]
  cases h2 : findProduct db.products pid with
  | none =>
    have h1 : findProduct ps pid = none := by
      rw [h2] at hf
      simpa using hf
    rw [h1]
  | some p =>
    rw [h2] at hf
    cases h1 : findProduct ps pid with
    | none =>
      rw [h1] at hf
      exact absurd hf (by simp)
    | some p1 =>
      rw [h1] at hf
      simp only [Option.map_some'] at hf
      have hstrip : stripCost p1 = stripCost p := Option.some.inj hf
      have hcode : p1.code = p.code := by
        have := congrArg (fun x => x.code) hstrip
        simpa [stripCost] using this
      have hname : p1.name = p.name := by
        have := congrArg (fun x => x.name) hstrip
        simpa [stripCost] using this
      have hfun : costLineOf { db with products := ps } = costLineOf db := rfl
      rw [get_bom_materials_strip db ps h, hfun]
      simp [hcode, hname]

theorem costTotalD_strip (db : DB) (ps : List Product)
    (h : ps.map stripCost = db.products.map stripCost) (x : Nat) :
    costTotalD { db with products := ps } x = costTotalD db x := by
  rw [costTotalD, costTotalD, cost_strip db ps h]

theorem foldl_preserves {α β : Type} (f : β → α → β) (P : β → Prop)
    (hf : ∀ b a, P b → P (f b a)) : ∀ (l : List α) (b : β), P b → P (l.foldl f b) := by
  intro l
  induction l with
  | nil => intro b hb; exact hb
  | cons x xs ih => intro b hb; exact ih _ (hf b x hb)

theorem findProduct_id_eq (ps : List Product) (x : Nat) (p : Product)
    (h : findProduct ps x = some p) : p.id = x := by
  have := List.find?_some h
  simpa using this

theorem findProduct_isSome_of_mem (ps : List Product) (p : Product) (hp : p ∈ ps) :
    (findProduct ps p.id).isSome := by
  rw [findProduct, List.find?_isSome]
  exact ⟨p, hp, by simp⟩

theorem findProduct_setCost (ps : List Product) (q : Nat) (v : ℚ) (x : Nat) :
    findProduct (setCostPrice ps q v) x
      = (findProduct ps x).map
          (fun p => if p.id = q then { p with cost_price := some v } else p) := by
  induction ps with
  | nil => rfl
  | cons p rest ih =>
    have hid : (if p.id = q then { p with cost_price := some v } else p).id = p.id := by
      by_cases h : p.id = q <;> simp [h]
    simp only [setCostPrice, List.map_cons, findProduct, List.find?, hid]
    by_cases hp : (p.id == x) = true
    · simp [hp]
    · have hp2 : (p.id == x) = false := by simpa using hp
      simp only [hp2]
      simpa [findProduct, setCostPrice] using ih

theorem lookup_setCost_other (ps : List Product) (q : Nat) (v : ℚ) (x : Nat) (hx : x ≠ q) :
    (findProduct (setCostPrice ps q v) x).map (fun p => p.cost_price)
      = (findProduct ps x).map (fun p => p.cost_price) := by
  rw [findProduct_setCost]
  cases h : findProduct ps x with
  | none => rfl
  | some p =>
    have hid := findProduct_id_eq ps x p h
    simp only [Option.map_some']
    rw [if_neg (by rw [hid]; exact hx)]

theorem lookup_setCost_self (ps : List Product) (q : Nat) (v : ℚ)
    (h : (findProduct ps q).isSome) :
    (findProduct (setCostPrice ps q v) q).map (fun p => p.cost_price) = some (some v) := by
  rw [findProduct_setCost]
  cases hf : findProduct ps q with
  | none => rw [hf] at h; simp at h
  | some p =>
    have hid := findProduct_id_eq ps q p hf
    simp [hid]

theorem entry_kept (db : DB) (ps : List Product) (q : Nat) (v : ℚ)
    (hv : v = costTotalD db q) (pid : Nat)
    (hgood : (findProduct ps pid).map (fun x => x.cost_price)
      = some (some (costTotalD db pid))) :
    (findProduct (setCostPrice ps q v) pid).map (fun x => x.cost_price)
      = some (some (costTotalD db pid)) := by
  by_cases hx : pid = q
  · subst hx
    have hsome : (findProduct ps pid).isSome := by
      cases hf : findProduct ps pid
      · rw [hf] at hgood; exact absurd hgood (by simp)
      · rfl
    rw [lookup_setCost_self ps pid v hsome, hv]
  · rw [lookup_setCost_other ps q v pid hx]
    exact hgood

theorem cascStep_inv (db : DB) (trig : String) (st : RecalcState) (se : BomSemiProduct)
    (hinv : RecalcInv db st) : RecalcInv db (cascStep db trig st se) := by
  rw [cascStep]
  split
  · exact hinv
  rename_i parent hf
  split
  · exact hinv
  rename_i cd hc
  simp only [RecalcInv] at hinv ⊢
  obtain ⟨hstrip, hupd⟩ := hinv
  have hcd : cd.total_cost = costTotalD db parent.id := by
    have hcs := cost_strip db st.prods hstrip parent.id none
    rw [hc] at hcs
    rw [costTotalD, ← hcs]
  refine ⟨?_, ?_⟩
  · rw [setCostPrice_strip]
    exact hstrip
  · intro u hu
    obtain ⟨hl, hn⟩ := hupd u hu
    exact ⟨entry_kept db st.prods parent.id cd.total_cost hcd u.product_id hl, hn⟩

theorem cascStep_updated (db : DB) (trig : String) (st : RecalcState) (se : BomSemiProduct) :
    (cascStep db trig st se).updated = st.updated := by
  rw [cascStep]
  split
  · rfl
  split
  · rfl
  rfl

theorem cascFold_updated (db : DB) (trig : String) :
    ∀ (l : List BomSemiProduct) (st : RecalcState),
      (l.foldl (cascStep db trig) st).updated = st.updated := by
  intro l
  induction l with
  | nil => intro st; rfl
  | cons se rest ih =>
    intro st
    rw [List.foldl_cons, ih, cascStep_updated]

theorem recalcCascade_inv (db : DB) (p : Product) (st1 : RecalcState)
    (h : RecalcInv db st1) : RecalcInv db (recalcCascade db p st1) := by
  rw [recalcCascade]
  by_cases hg : p.group = "BTP"
  · rw [if_pos hg]
    exact foldl_preserves _ _ (fun b a hb => cascStep_inv db p.code b a hb) _ st1 h
  · rw [if_neg hg]
    exact h

theorem recalcCascade_updated (db : DB) (p : Product) (st1 : RecalcState) :
    (recalcCascade db p st1).updated = st1.updated := by
  rw [recalcCascade]
  by_cases hg : p.group = "BTP"
  · rw [if_pos hg, cascFold_updated]
  · rw [if_neg hg]

theorem recalcStep_inv (db : DB) (st : RecalcState) (e : BomMaterial)
    (hinv : RecalcInv db st) : RecalcInv db (recalcStep db st e) := by
  rw [recalcStep]
  split
  · exact hinv
  rename_i p hf
  split
  · exact hinv
  rename_i cd hc
  apply recalcCascade_inv
  simp only [RecalcInv] at hinv ⊢
  obtain ⟨hstrip, hupd⟩ := hinv
  have hcd : cd.total_cost = costTotalD db p.id := by
    have hcs := cost_strip db st.prods hstrip p.id none
    rw [hc] at hcs
    rw [costTotalD, ← hcs]
  have hpid : p.id = e.product_id := findProduct_id_eq st.prods e.product_id p hf
  refine ⟨?_, ?_⟩
  · rw [setCostPrice_strip]
    exact hstrip
  · intro u hu
    rcases List.mem_append.mp hu with hu | hu
    · obtain ⟨hl, hn⟩ := hupd u hu
      exact ⟨entry_kept db st.prods p.id cd.total_cost hcd u.product_id hl, hn⟩
    · have hu2 := List.mem_singleton.mp hu
      subst hu2
      refine ⟨?_, hcd⟩
      rw [lookup_setCost_self st.prods p.id cd.total_cost
        (by rw [show findProduct st.prods p.id = some p by rw [hpid]; exact hf]; rfl), hcd]

theorem recalc_updated_mono (db : DB) :
    ∀ (l : List BomMaterial) (st : RecalcState) (u : UpdEntry),
      u ∈ st.updated → u ∈ (l.foldl (recalcStep db) st).updated := by
  intro l
  induction l with
  | nil => intro st u hu; exact hu
  | cons e rest ih =>
    intro st u hu
    rw [List.foldl_cons]
    apply ih
    rw [recalcStep]
    split
    · exact hu
    split
    · exact hu
    rw [recalcCascade_updated]
    exact List.mem_append_left _ hu

theorem recalcStep_appends (db : DB) (st : RecalcState) (e : BomMaterial) (p1 : Product)
    (hf : findProduct st.prods e.product_id = some p1) :
    ∃ cd, calculate_product_cost_from_bom { db with products := st.prods } p1.id none = some cd ∧
      (recalcStep db st e).updated = st.updated ++
        [{ product_id := p1.id, product_code := p1.code, old_cost := optNormQ p1.cost_price,
           new_cost := cd.total_cost }] := by
  have hpid : p1.id = e.product_id := findProduct_id_eq st.prods e.product_id p1 hf
  have hf2 : findProduct st.prods p1.id = some p1 := by rw [hpid]; exact hf
  have hc : ∃ cd, calculate_product_cost_from_bom { db with products := st.prods } p1.id none
      = some cd := by
    simp only [calculate_product_cost_from_bom, hf2]
    exact ⟨_, rfl⟩
  obtain ⟨cd, hcd⟩ := hc
  refine ⟨cd, hcd, ?_⟩
  have hcd2 : calculate_product_cost_from_bom { db with products := st.prods } e.product_id none
      = some cd := by rw [← hpid]; exact hcd
  simp only [recalcStep, hf]
  simp only [hpid] at hcd ⊢
  simp only [hcd2, recalcCascade_updated]

/-- C6: for every product `p` with a direct BOM material edge to material
`mid`, the recalculation records an update entry for `p` (with its old and new
cost) whose new cost is the total cost computed from the unchanged BOM and
price data, and afterwards `p`'s stored `cost_price` equals that newly
computed total cost — even if a later iteration or the cascade tier rewrites
it, the rewritten value is the same because the costing never reads
`cost_price`. -/
theorem C6_direct_consumers_updated (db : DB) (mid : Nat) (p : Product)
    (hp : p ∈ db.products) (e : BomMaterial) (he : e ∈ db.bom_materials)
    (hem : e.material_id = mid) (hep : e.product_id = p.id) :
    (∃ u ∈ (recalculate_product_cost_on_material_price_change db mid).2.updated,
        u.product_id = p.id ∧ u.new_cost = costTotalD db p.id) ∧
    (findProduct (recalculate_product_cost_on_material_price_change db mid).1.products
        p.id).map (fun x => x.cost_price) = some (some (costTotalD db p.id)) := by
  have hsome0 : (findProduct db.products e.product_id).isSome := by
    rw [hep]
    exact findProduct_isSome_of_mem db.products p hp
  have herows : e ∈ db.bom_materials.filter
      (fun e2 => e2.material_id == mid && (findProduct db.products e2.product_id).isSome) := by
    refine List.mem_filter.mpr ⟨he, ?_⟩
    simp [hem, hsome0]
  obtain ⟨l1, l2, hsplit⟩ := List.append_of_mem herows
  set st0 : RecalcState := { prods := db.products, updated := [], cascade := [] } with hst0
  set st1 : RecalcState := l1.foldl (recalcStep db) st0 with hst1
  have hinv0 : RecalcInv db st0 := by
    refine ⟨rfl, ?_⟩
    intro u hu
    rw [hst0] at hu
    simp at hu
  have hinv1 : RecalcInv db st1 :=
    foldl_preserves _ _ (fun b a hb => recalcStep_inv db b a hb) l1 _ hinv0
  obtain ⟨hstrip1, hupd1⟩ := hinv1
  have hsome1 : (findProduct st1.prods e.product_id).isSome := by
    have h1 := findProduct_strip_eq st1.prods db.products hstrip1 e.product_id
    cases hx : findProduct st1.prods e.product_id with
    | none =>
      rw [hx] at h1
      cases hy : findProduct db.products e.product_id with
      | none => rw [hy] at hsome0; simp at hsome0
      | some pp => rw [hy] at h1; simp at h1
    | some pp => rfl
  obtain ⟨p1, hf1⟩ := Option.isSome_iff_exists.mp hsome1
  have hp1id : p1.id = e.product_id := findProduct_id_eq _ e.product_id p1 hf1
  obtain ⟨cd, hcd, happ⟩ := recalcStep_appends db st1 e p1 hf1
  have hcdval : cd.total_cost = costTotalD db p1.id := by
    have hcs := cost_strip db st1.prods hstrip1 p1.id none
    rw [hcd] at hcs
    rw [costTotalD, ← hcs]
  set st2 : RecalcState := recalcStep db st1 e with hst2
  set stF : RecalcState := l2.foldl (recalcStep db) st2 with hstF
  have hinv2 : RecalcInv db st2 := recalcStep_inv db st1 e ⟨hstrip1, hupd1⟩
  have humem2 : ∃ u ∈ st2.updated, u.product_id = p1.id ∧ u.new_cost = cd.total_cost := by
    rw [happ]
    exact ⟨_, List.mem_append_right _ (List.mem_singleton.mpr rfl), rfl, rfl⟩
  obtain ⟨u, hu2, hupid, hunew⟩ := humem2
  have hfin : (db.bom_materials.filter (fun e2 => e2.material_id == mid &&
      (findProduct db.products e2.product_id).isSome)).foldl (recalcStep db) st0 = stF := by
    rw [hsplit, List.foldl_append, List.foldl_cons, hstF, hst2, hst1]
  have hinvF : RecalcInv db stF :=
    foldl_preserves _ _ (fun b a hb => recalcStep_inv db b a hb) l2 _ hinv2
  have humemF : u ∈ stF.updated := by
    rw [hstF]
    exact recalc_updated_mono db l2 st2 u hu2
  obtain ⟨hstripF, hupdF⟩ := hinvF
  obtain ⟨hlF, hnF⟩ := hupdF u humemF
  have heq2 : (recalculate_product_cost_on_material_price_change db mid).2 = stF := by
    simp only [recalculate_product_cost_on_material_price_change]
    rw [← hst0, hfin]
  have heq1 : (recalculate_product_cost_on_material_price_change db mid).1.products
      = stF.prods := by
    simp only [recalculate_product_cost_on_material_price_change]
    rw [← hst0, hfin]
  have hpid : p1.id = p.id := by rw [hp1id, hep]
  constructor
  · rw [heq2]
    refine ⟨u, humemF, ?_, ?_⟩
    · rw [hupid, hpid]
    · rw [hnF, hupid, hpid]
  · rw [heq1, ← hpid, ← hupid]
    exact hlF

/-- Witness for C6: on `dbC6`, recalculating after a price change of
material 3 records an update for product 1 with the recomputed cost and
persists that cost on product 1. -/
theorem C6_witness :
    (∃ u ∈ (recalculate_product_cost_on_material_price_change dbC6 3).2.updated,
        u.product_id = prodF6.id ∧ u.new_cost = costTotalD dbC6 prodF6.id) ∧
    (findProduct (recalculate_product_cost_on_material_price_change dbC6 3).1.products
        prodF6.id).map (fun x => x.cost_price)
      = some (some (costTotalD dbC6 prodF6.id)) :=
  C6_direct_consumers_updated dbC6 3 prodF6 (by decide) edgeC6 (by decide) rfl rfl
